import Mathlib

/-!
Verification development for the spectrum-barometer repository.

Shallow embedding of the acquisition pipeline (`BarometerScraper.extract_barometer_value`,
`BarometerScraper.save_reading`), the time-series store (`load_data`, the `archive`
command) from `barometer_logger.py`, and the lifecycle controller / poller worker
(`is_monitoring`, `get_monitor_info`, `start_monitoring`, `stop_monitoring`,
`_monitor_loop`) from `barometer/background.py`.

Modelling conventions:
- Timestamps are integers (seconds); `datetime.now().isoformat()` round-trips
  through the CSV, and only ordering and equality of timestamps matter to the code.
- Python float division `pressure / 100` is modelled as exact rational division.
- A write of a whole file (`write_text`, `to_csv`) is modelled as an atomic update
  of an `Option` cell; a failed write leaves the cell unchanged and raises, which
  the code's `except` handler then observes.
- `pandas.concat` of the per-file data frames is list concatenation in the order
  the frames were appended (active shard first, then each archive CSV in the
  directory-scan order), and `drop_duplicates(subset=['timestamp'], keep='last')`
  keeps the last occurrence of each timestamp in its input order.
- `sort_values('timestamp')` is modelled by its contract: it returns a sorted
  permutation of its input.  Its default `kind='quicksort'` does not guarantee
  stability, so any conclusion that depends on the relative order of rows with
  equal timestamps is proved for EVERY sorted permutation, or under an explicit
  hypothesis (pairwise-distinct timestamps, under which the sorted permutation
  is unique; or a stability assumption at the relevant timestamp).  To keep
  `load_data` executable, the model instantiates the sort with insertion sort,
  one admissible outcome of the contract.
-/

namespace Spectrum

/-- Characters removed by Python `str.strip()` with no argument (ASCII part). -/
def pyIsSpace (c : Char) : Bool :=
  c == ' ' || c == '\t' || c == '\n' || c == '\r' || c == '\x0b' || c == '\x0c'

/-- Python `str.strip()`: drop leading and trailing whitespace. -/
def pyStrip (s : String) : String :=
  String.mk (((s.data.dropWhile pyIsSpace).reverse.dropWhile pyIsSpace).reverse)

/-- The decimal digit character for `n < 10`. -/
def digitChar (n : Nat) : Char :=
  Char.ofNat (48 + n)

/-- Decimal digit list of a natural number, most significant first; `fuel`
bounds the recursion depth (any `fuel ≥ n` gives the digits of `n`). -/
def natDigitsAux (fuel : Nat) (n : Nat) : List Char :=
  match fuel with
  | 0 => []
  | fuel + 1 => if n < 10 then [digitChar n] else natDigitsAux fuel (n / 10) ++ [digitChar (n % 10)]

/-- Decimal rendering of a natural number (Python `str(n)` for `n : int`, `n ≥ 0`). -/
def natToStr (n : Nat) : String :=
  String.mk (natDigitsAux (n + 1) n)

/-- Numeric value of a decimal digit character. -/
def digitVal (c : Char) : Nat :=
  c.toNat - 48

/-- Value of a list of decimal digit characters, most significant first. -/
def digitsToNat (ds : List Char) : Nat :=
  ds.foldl (fun acc c => 10 * acc + digitVal c) 0

/-- The first maximal run of decimal digits in a character list, if any.
This is `re.search(r'(\d+)', s)` applied to the characters of `s`. -/
def firstDigitRunAux : List Char → Option (List Char)
  | [] => none
  | c :: cs => if c.isDigit then some (c :: cs.takeWhile Char.isDigit) else firstDigitRunAux cs

/-- `int(re.search(r'(\d+)', s).group(1))` when the search succeeds, `none` otherwise. -/
def firstDigitRun (s : String) : Option Nat :=
  (firstDigitRunAux s.data).map digitsToNat

/-- Python `int(s)` for a plain string: strip whitespace, optional sign, then a
nonempty run of decimal digits; `none` models the `ValueError` raise.
(Grouping underscores and non-ASCII digits are not modelled; the store only
ever writes `str(interval)`, a plain digit string.) -/
def pyParseInt (s : String) : Option Int :=
  let t := (pyStrip s).data
  match t with
  | '+' :: ds => if ds ≠ [] ∧ ds.all Char.isDigit then some (Int.ofNat (digitsToNat ds)) else none
  | '-' :: ds => if ds ≠ [] ∧ ds.all Char.isDigit then some (-(Int.ofNat (digitsToNat ds))) else none
  | ds => if ds ≠ [] ∧ ds.all Char.isDigit then some (Int.ofNat (digitsToNat ds)) else none

/-! ## Acquisition pipeline: `BarometerScraper.extract_barometer_value`

The extractor only inspects the tables `pandas.read_html` finds in the response
body: each table is reduced to its list of (`Field`, `Setting`) cell pairs, in
row order.  `df[df['Field'] == 'Barometer Value']` followed by `.values[0]`
selects the first row whose `Field` cell is exactly `"Barometer Value"`. -/

/-- One HTML table as the extractor sees it: (`Field`, `Setting`) cell pairs. -/
structure HtmlTable where
  rows : List (String × String)
deriving DecidableEq

/-- Outcome of `extract_barometer_value`.  In the source every failure
constructor corresponds to returning `None` after logging the stage-specific
message ("No tables found" / "Could not find 'Barometer Value' in table" /
"Could not parse pressure from: ...").  The whole body is wrapped in
`try/except`, so no input raises an unhandled fault. -/
inductive ExtractResult where
  | ok (pressure : Nat)
  | noTable
  | rowNotFound
  | valueUnparseable (setting : String)
deriving DecidableEq

/-- First row of a table whose `Field` cell equals `"Barometer Value"`. -/
def findBarometerRow (t : HtmlTable) : Option (String × String) :=
  t.rows.find? (fun r => r.1 == "Barometer Value")

/-- `BarometerScraper.extract_barometer_value`, over the tables found in the body. -/
def extract_barometer_value (tables : List HtmlTable) : ExtractResult :=
  match tables with
  | [] => .noTable
  | df :: _ =>
    match findBarometerRow df with
    | none => .rowNotFound
    | some row =>
      match firstDigitRun row.2 with
      | some p => .ok p
      | none => .valueUnparseable row.2

/-! ## Time-series store: `save_reading`, `load_data`, `archive` -/

/-- One CSV record: `timestamp, pressure_pa, pressure_hpa`. -/
structure Row where
  timestamp : Int
  pressure_pa : Nat
  pressure_hpa : Rat
deriving DecidableEq

/-- The record `save_reading` builds for pressure `p` at time `now`:
`pressure_hpa = pressure / 100`. -/
def mkReading (now : Int) (p : Nat) : Row :=
  { timestamp := now, pressure_pa := p, pressure_hpa := (p : Rat) / 100 }

/-- The active `readings.csv`: header flag plus data rows in file order. -/
structure CsvFile where
  hasHeader : Bool
  rows : List Row
deriving DecidableEq

/-- `BarometerScraper.save_reading`: append one record to `readings.csv`,
writing the header exactly when the file did not exist
(`df.to_csv(data_file, mode='a', header=not file_exists)`). -/
def save_reading (p : Nat) (now : Int) (file : Option CsvFile) : Option CsvFile :=
  match file with
  | none => some { hasHeader := true, rows := [mkReading now p] }
  | some f => some { f with rows := f.rows ++ [mkReading now p] }

/-- A sequence of `save_reading` calls, earliest first. -/
def appendAll : List (Int × Nat) → Option CsvFile → Option CsvFile
  | [], file => file
  | (t, p) :: ps, file => appendAll ps (save_reading p t file)

/-- On-disk state seen by the store: the active shard, the archive CSVs in
directory-scan order (keyed by the `YYYY-MM` directory holding the fixed file
name `readings_archive.csv`), the live log size in bytes, and the archived log
copies (`barometer.log`, not matched by the `*.csv` glob of `load_data`). -/
structure StoreFS where
  active : Option CsvFile
  archives : List (String × List Row)
  logBytes : Nat
  archivedLogs : List (String × Nat)
deriving DecidableEq

/-- Stable insertion of a row into a list sorted by timestamp: the new row goes
before the first strictly later position, after all rows with a smaller-or-equal
timestamp that precede it. -/
def insertRow (r : Row) : List Row → List Row
  | [] => [r]
  | x :: xs => if r.timestamp ≤ x.timestamp then r :: x :: xs else x :: insertRow r xs

/-- Insertion sort by timestamp: the executable instantiation of
`sort_values('timestamp')`, whose default quicksort guarantees only a sorted
permutation of the input, not stability.  This choice happens to be stable, so
no theorem derives a tied-row order from it: conclusions sensitive to the order
of rows with equal timestamps are proved for every sorted permutation or under
hypotheses (distinct timestamps, or stability at the examined timestamp) that
make the tie order determined. -/
def insSort : List Row → List Row
  | [] => []
  | x :: xs => insertRow x (insSort xs)

/-- `drop_duplicates(subset=['timestamp'], keep='last')`: keep a row exactly
when no later row has the same timestamp. -/
def dedupKeepLast : List Row → List Row
  | [] => []
  | r :: rs =>
    if rs.any (fun x => x.timestamp == r.timestamp) then dedupKeepLast rs
    else r :: dedupKeepLast rs

/-- The rows of a list with a given timestamp, in order. -/
def filterTs (t : Int) (l : List Row) : List Row :=
  l.filter (fun r => r.timestamp == t)

/-- Last element of a list, if any. -/
def lastOf? : List α → Option α
  | [] => none
  | [a] => some a
  | _ :: b :: l => lastOf? (b :: l)

/-- `load_data(include_archives)`: `None` when `readings.csv` does not exist;
otherwise the active rows, then (when requested) every archive CSV's rows in
scan order, concatenated, stably sorted by timestamp, then deduplicated by
timestamp keeping the last occurrence. -/
def load_data (include_archives : Bool) (fs : StoreFS) : Option (List Row) :=
  match fs.active with
  | none => none
  | some f =>
    let dfs := f.rows ++ (if include_archives then (fs.archives.map Prod.snd).flatten else [])
    some (dedupKeepLast (insSort dfs))

/-- Write file `v` under key `k`: overwrite the existing entry for `k` if there
is one, otherwise add a new entry at the end of the scan order. -/
def assocPut (k : String) (v : α) : List (String × α) → List (String × α)
  | [] => [(k, v)]
  | (k2, v2) :: l => if k2 == k then (k2, v) :: l else (k2, v2) :: assocPut k v l

/-- Look up the entry for key `k`. -/
def assocLookup (k : String) : List (String × α) → Option α
  | [] => none
  | (k2, v) :: l => if k2 == k then some v else assocLookup k l

/-- First phase of the `archive` CLI command: copy the log into the archive
directory and truncate it when it exceeds 10 MiB (`st_size/1024/1024 > 10`),
counting one archived item. -/
def rotateLog (ym : String) (fs : StoreFS) : StoreFS × Nat :=
  if fs.logBytes > 10 * 1024 * 1024 then
    ({ fs with logBytes := 0, archivedLogs := assocPut ym fs.logBytes fs.archivedLogs }, 1)
  else (fs, 0)

/-- Second phase of the `archive` CLI command: split `load_data()` at `cutoff`,
writing the strictly older rows to `<ym>/readings_archive.csv` and the rows at
or after the cutoff back as the new active shard (`to_csv` always writes the
header), counting one archived item when any row moved. -/
def archiveData (cutoff : Int) (ym : String) (fs : StoreFS) : StoreFS × Nat :=
  match load_data false fs with
  | none => (fs, 0)
  | some df =>
    if df.isEmpty then (fs, 0)
    else
      let old := df.filter (fun r => decide (r.timestamp < cutoff))
      let recent := df.filter (fun r => decide (cutoff ≤ r.timestamp))
      if old.isEmpty then (fs, 0)
      else
        ({ fs with active := some { hasHeader := true, rows := recent },
                   archives := assocPut ym old fs.archives }, 1)

/-- The `archive` CLI command, for current year-month `ym`
(`datetime.now().strftime('%Y-%m')`) and current time `now`
(`cutoff = now - timedelta(days=keep_days)`): log rotation first, then the
data split.  Returns the new state and the total `archived_items`. -/
def archive (keep_days : Nat) (now : Int) (ym : String) (fs : StoreFS) : StoreFS × Nat :=
  let cutoff : Int := now - (keep_days : Int) * 86400
  let s1 := rotateLog ym fs
  let s2 := archiveData cutoff ym s1.1
  (s2.1, s1.2 + s2.2)

/-! ## Lifecycle controller: `is_monitoring`, `get_monitor_info`,
`start_monitoring`, `stop_monitoring` -/

/-- The two state files of the lifecycle controller: the contents of
`monitor.state` and `monitor.interval`, `none` when the file does not exist. -/
structure LifecycleFS where
  stateFile : Option String
  intervalFile : Option String
deriving DecidableEq

/-- `is_monitoring()`: the flag file exists and its stripped content is
`'running'`. -/
def is_monitoring (stateFile : Option String) : Bool :=
  match stateFile with
  | none => false
  | some s => pyStrip s == "running"

/-- Result of `get_monitor_info()` (the `pid` field is constantly `None`). -/
structure MonitorInfo where
  running : Bool
  interval : Option Int
deriving DecidableEq

/-- `get_monitor_info()`: read the interval record with fallback 300 on a
missing file or a `ValueError` from `int(...)`; report it only while running.
A pure read: the state is not modified. -/
def get_monitor_info (fs : LifecycleFS) : MonitorInfo :=
  let itv : Int :=
    match fs.intervalFile with
    | none => 300
    | some s =>
      match pyParseInt s with
      | some n => n
      | none => 300
  let running := is_monitoring fs.stateFile
  { running := running, interval := if running then some itv else none }

/-- Outcome of `start_monitoring` (`success`/`message` of the result dict). -/
inductive StartOutcome where
  | alreadyRunning
  | started
  | failed
deriving DecidableEq

/-- `start_monitoring(interval)`: refuse when the flag strips to `'running'`;
otherwise write the flag (`state_file.write_text('running')`) and then the
interval record (`interval_file.write_text(str(interval))`), in that order.
`w1`/`w2` say whether the first and second write succeed; the first failure
raises, and the handler unlinks the flag file (`missing_ok=True`) and returns
the failure.  A failed write leaves its target file unchanged. -/
def start_monitoring (fs : LifecycleFS) (interval : Nat) (w1 w2 : Bool) :
    LifecycleFS × StartOutcome :=
  if is_monitoring fs.stateFile then (fs, .alreadyRunning)
  else if w1 = false then ({ fs with stateFile := none }, .failed)
  else if w2 = false then ({ fs with stateFile := none }, .failed)
  else ({ stateFile := some "running", intervalFile := some (natToStr interval) }, .started)

/-- The start sequence as the claim words it (a spec-side variant, for
comparison only): interval record written first, flag second, same failure
handling (remove any partially written flag, return the error). -/
def start_claim_order (fs : LifecycleFS) (interval : Nat) (w1 w2 : Bool) :
    LifecycleFS × StartOutcome :=
  if is_monitoring fs.stateFile then (fs, .alreadyRunning)
  else if w1 = false then ({ fs with stateFile := none }, .failed)
  else if w2 = false then
    ({ stateFile := none, intervalFile := some (natToStr interval) }, .failed)
  else ({ stateFile := some "running", intervalFile := some (natToStr interval) }, .started)

/-- Outcome of `stop_monitoring`. -/
inductive StopOutcome where
  | notRunning
  | stopped
deriving DecidableEq

/-- `stop_monitoring()`: `NotRunning` when the flag file is absent; otherwise
unlink both files (`missing_ok=True`). -/
def stop_monitoring (fs : LifecycleFS) : LifecycleFS × StopOutcome :=
  match fs.stateFile with
  | none => (fs, .notRunning)
  | some _ => ({ stateFile := none, intervalFile := none }, .stopped)

/-! ## Poller worker: `_monitor_loop`

Discrete-time model.  The environment (including `stop_monitoring` run from
another thread or process) controls the flag file; `flag n` is its content at
the worker's `n`-th read of the file.  Each `time.sleep(1)` is one time unit;
flag reads and the scrape itself take no modelled time (a scrape in progress
only delays the next read).  The inner `for _ in range(interval)` loop reads
the flag once per iteration and sleeps one unit only when it read `running`. -/

/-- The sleep chunk loop `for _ in range(n)`, starting at read index `i`:
returns the next read index and the number of 1-second sleeps performed. -/
def chunkSleep (flag : Nat → Option String) : Nat → Nat → Nat × Nat
  | i, 0 => (i, 0)
  | i, n + 1 =>
    if is_monitoring (flag i) then
      let r := chunkSleep flag (i + 1) n
      (r.1, r.2 + 1)
    else (i + 1, 0)

/-- How a bounded run of the worker's `while` loop ended. -/
inductive LoopOutcome where
  | exited (next : Nat) (sleeps : Nat)
  | fuelOut (next : Nat) (sleeps : Nat)
deriving DecidableEq

/-- `_monitor_loop`, run for at most `fuel` iterations of the `while` loop,
starting at read index `i` with `s` sleeps already performed.  Each iteration
reads the flag at the top, runs one scrape tick (no modelled effect beyond
logging), then runs the sleep chunk loop. -/
def monitor_loop (flag : Nat → Option String) (interval : Nat) :
    Nat → Nat → Nat → LoopOutcome
  | 0, i, s => .fuelOut i s
  | fuel + 1, i, s =>
    if is_monitoring (flag i) then
      let r := chunkSleep flag (i + 1) interval
      monitor_loop flag interval fuel r.1 (s + r.2)
    else .exited (i + 1) s

/-- The worker's final cleanup on loop exit:
`state_file.unlink(missing_ok=True)`. -/
def loop_cleanup (_stateFile : Option String) : Option String :=
  none

/-- Rows of an optional CSV file (`[]` when the file does not exist). -/
def rowsOf (o : Option CsvFile) : List Row :=
  match o with
  | none => []
  | some f => f.rows

/-! ## Lemmas about decimal digits and digit runs -/

theorem digitVal_digitChar {m : Nat} (h : m < 10) : digitVal (digitChar m) = m := by
  interval_cases m <;> decide

theorem isDigit_digitChar {m : Nat} (h : m < 10) : (digitChar m).isDigit = true := by
  interval_cases m <;> decide

theorem natDigitsAux_ne_nil {fuel n : Nat} (h : 0 < fuel) : natDigitsAux fuel n ≠ [] := by
  match fuel with
  | f + 1 =>
    rw [natDigitsAux]
    split <;> simp

theorem natDigitsAux_all_digit {fuel n : Nat} :
    ∀ c ∈ natDigitsAux fuel n, c.isDigit = true := by
  induction fuel generalizing n with
  | zero => intro c hc; simp [natDigitsAux] at hc
  | succ f ih =>
    intro c hc
    rw [natDigitsAux] at hc
    split at hc
    · rw [List.mem_singleton] at hc
      subst hc
      exact isDigit_digitChar (by omega)
    · rw [List.mem_append] at hc
      rcases hc with hc | hc
      · exact ih c hc
      · rw [List.mem_singleton] at hc
        subst hc
        exact isDigit_digitChar (Nat.mod_lt _ (by omega))

theorem digitsToNat_append_digit (ds : List Char) (c : Char) :
    digitsToNat (ds ++ [c]) = 10 * digitsToNat ds + digitVal c := by
  simp [digitsToNat, List.foldl_append]

theorem digitsToNat_natDigitsAux {fuel n : Nat} (h : n ≤ fuel) :
    digitsToNat (natDigitsAux fuel n) = n := by
  induction fuel generalizing n with
  | zero => simp [natDigitsAux, digitsToNat]; omega
  | succ f ih =>
    rw [natDigitsAux]
    split
    · next hlt => simp [digitsToNat, digitVal_digitChar hlt]
    · next hge =>
      rw [digitsToNat_append_digit, ih (by omega), digitVal_digitChar (Nat.mod_lt _ (by omega))]
      omega

theorem firstDigitRunAux_append {pre l : List Char}
    (h : ∀ c ∈ pre, c.isDigit = false) :
    firstDigitRunAux (pre ++ l) = firstDigitRunAux l := by
  induction pre with
  | nil => rfl
  | cons c cs ih =>
    rw [List.cons_append, firstDigitRunAux, h c (by simp)]
    simp only [Bool.false_eq_true, if_false]
    exact ih fun a ha => h a (by simp [ha])

theorem takeWhile_eq_self_of_all {p : α → Bool} {l : List α} (h : ∀ a ∈ l, p a = true) :
    l.takeWhile p = l := by
  induction l with
  | nil => rfl
  | cons x xs ih =>
    simp [List.takeWhile, h x (by simp), ih fun a ha => h a (by simp [ha])]

theorem firstDigitRunAux_of_all_digit {l : List Char}
    (hd : ∀ c ∈ l, c.isDigit = true) (hne : l ≠ []) :
    firstDigitRunAux l = some l := by
  match l with
  | c :: cs =>
    rw [firstDigitRunAux, hd c (by simp)]
    simp only [if_true]
    rw [takeWhile_eq_self_of_all fun a ha => hd a (by simp [ha])]

theorem firstDigitRunAux_none_of_no_digit {l : List Char}
    (h : ∀ c ∈ l, c.isDigit = false) :
    firstDigitRunAux l = none := by
  induction l with
  | nil => rfl
  | cons c cs ih =>
    rw [firstDigitRunAux, h c (by simp)]
    simp only [Bool.false_eq_true, if_false]
    exact ih fun a ha => h a (by simp [ha])

theorem firstDigitRun_none_of_no_digit {s : String}
    (h : ∀ c ∈ s.data, c.isDigit = false) :
    firstDigitRun s = none := by
  rw [firstDigitRun, firstDigitRunAux_none_of_no_digit h]
  rfl

theorem string_data_append (a b : String) : (a ++ b).data = a.data ++ b.data := rfl

/-- The extractor's digit scan applied to a setting of the shape
`"Pressure = <decimal digits of N>"` recovers exactly `N`. -/
theorem firstDigitRun_pressure (N : Nat) :
    firstDigitRun ("Pressure = " ++ natToStr N) = some N := by
  rw [firstDigitRun, string_data_append]
  have hpre : ∀ c ∈ "Pressure = ".data, c.isDigit = false := by decide
  rw [show (natToStr N).data = natDigitsAux (N + 1) N from rfl,
    firstDigitRunAux_append hpre,
    firstDigitRunAux_of_all_digit natDigitsAux_all_digit (natDigitsAux_ne_nil (by omega))]
  simp [digitsToNat_natDigitsAux (Nat.le_succ N)]

theorem lastOf?_append_singleton (l : List α) (a : α) : lastOf? (l ++ [a]) = some a := by
  induction l with
  | nil => rfl
  | cons x xs ih =>
    match xs with
    | [] => rfl
    | y :: ys => exact ih

/-! ## Claim theorems about the acquisition pipeline -/

/-- Claim C4: for every malformed response body — no table at all, a first
table without a row whose `Field` cell is `"Barometer Value"`, or a matching
row whose `Setting` string contains no decimal digit — `extract_barometer_value`
yields the failure outcome of exactly that stage (`noTable` / `rowNotFound` /
`valueUnparseable`).  The model is a total function: the source wraps the whole
body in `try/except`, so no such input escapes as an unhandled fault. -/
theorem c4_extraction_error_stages (t : HtmlTable) (ts : List HtmlTable) (fld s : String) :
    extract_barometer_value [] = ExtractResult.noTable
  ∧ (findBarometerRow t = none →
      extract_barometer_value (t :: ts) = ExtractResult.rowNotFound)
  ∧ (findBarometerRow t = some (fld, s) → (∀ c ∈ s.data, c.isDigit = false) →
      extract_barometer_value (t :: ts) = ExtractResult.valueUnparseable s) := by
  refine ⟨rfl, ?_, ?_⟩
  · intro h
    simp [extract_barometer_value, h]
  · intro h hnd
    simp [extract_barometer_value, h, firstDigitRun_none_of_no_digit hnd]

/-- Concrete instances for C4: a table with no matching row, and a matching row
with a digit-free setting. -/
theorem c4_extraction_error_stages_witness :
    (findBarometerRow ⟨[("Downstream Power", "ok")]⟩ = none
      ∧ extract_barometer_value [⟨[("Downstream Power", "ok")]⟩] = ExtractResult.rowNotFound)
  ∧ (findBarometerRow ⟨[("Barometer Value", "Pressure = none")]⟩ =
        some ("Barometer Value", "Pressure = none")
      ∧ (∀ c ∈ "Pressure = none".data, c.isDigit = false)
      ∧ extract_barometer_value [⟨[("Barometer Value", "Pressure = none")]⟩] =
          ExtractResult.valueUnparseable "Pressure = none") :=
  ⟨⟨by decide,
    (c4_extraction_error_stages ⟨[("Downstream Power", "ok")]⟩ [] "" "").2.1 (by decide)⟩,
   by decide, by decide,
    (c4_extraction_error_stages ⟨[("Barometer Value", "Pressure = none")]⟩ [] "Barometer Value"
      "Pressure = none").2.2 (by decide) (by decide)⟩

/-- Claim C5: when the first table's first `"Barometer Value"` row has a
`Setting` cell of the form `"Pressure = N"` for a decimal integer `N`,
extraction yields the raw value `N` (the first contiguous digit run), and the
reading stored by `save_reading` carries `pressure_pa = N` and
`pressure_hpa = N / 100`. -/
theorem c5_valid_extraction (N : Nat) (t : HtmlTable) (ts : List HtmlTable)
    (h : findBarometerRow t = some ("Barometer Value", "Pressure = " ++ natToStr N)) :
    extract_barometer_value (t :: ts) = ExtractResult.ok N
  ∧ (∀ (now : Int) (file : Option CsvFile), ∃ f2,
      save_reading N now file = some f2
      ∧ lastOf? f2.rows = some (mkReading now N)
      ∧ (mkReading now N).pressure_pa = N
      ∧ (mkReading now N).pressure_hpa = (N : Rat) / 100) := by
  constructor
  · simp [extract_barometer_value, h, firstDigitRun_pressure]
  · intro now file
    match file with
    | none => exact ⟨_, rfl, rfl, rfl, rfl⟩
    | some f => exact ⟨_, rfl, lastOf?_append_singleton f.rows _, rfl, rfl⟩

/-- Concrete instance for C5 at `N = 98425`. -/
theorem c5_valid_extraction_witness :
    findBarometerRow ⟨[("Barometer Value", "Pressure = 98425")]⟩ =
      some ("Barometer Value", "Pressure = " ++ natToStr 98425)
  ∧ extract_barometer_value [⟨[("Barometer Value", "Pressure = 98425")]⟩] =
      ExtractResult.ok 98425 :=
  ⟨by decide,
   (c5_valid_extraction 98425 ⟨[("Barometer Value", "Pressure = 98425")]⟩ [] (by decide)).1⟩

/-! ## Lemmas about the stable sort and the keep-last dedup -/

/-- Rows sorted (non-strictly) ascending by timestamp. -/
def SortedTs (l : List Row) : Prop :=
  l.Pairwise (fun a b => a.timestamp ≤ b.timestamp)

theorem insertRow_perm (r : Row) (l : List Row) :
    List.Perm (insertRow r l) (r :: l) := by
  induction l with
  | nil => exact List.Perm.refl _
  | cons x xs ih =>
    rw [insertRow]
    split
    · exact List.Perm.refl _
    · exact (ih.cons x).trans (List.Perm.swap r x xs)

theorem insSort_perm (l : List Row) : List.Perm (insSort l) l := by
  induction l with
  | nil => exact List.Perm.refl _
  | cons x xs ih => exact (insertRow_perm x (insSort xs)).trans (ih.cons x)

theorem mem_insertRow {a r : Row} {l : List Row} :
    a ∈ insertRow r l ↔ a = r ∨ a ∈ l := by
  rw [(insertRow_perm r l).mem_iff, List.mem_cons]

theorem insertRow_sorted {r : Row} {l : List Row} (h : SortedTs l) :
    SortedTs (insertRow r l) := by
  induction l with
  | nil => exact List.pairwise_singleton _ r
  | cons x xs ih =>
    rw [insertRow]
    rcases List.pairwise_cons.mp h with ⟨hx, hxs⟩
    split
    · next hle =>
      exact List.pairwise_cons.mpr ⟨fun b hb => by
        rcases List.mem_cons.mp hb with rfl | hb
        · exact hle
        · exact le_trans hle (hx b hb), h⟩
    · next hgt =>
      refine List.pairwise_cons.mpr ⟨fun b hb => ?_, ih hxs⟩
      rcases mem_insertRow.mp hb with rfl | hb
      · omega
      · exact hx b hb

theorem insSort_sorted (l : List Row) : SortedTs (insSort l) := by
  induction l with
  | nil => exact List.Pairwise.nil
  | cons x xs ih => exact insertRow_sorted ih

theorem insertRow_of_le {r : Row} {l : List Row}
    (h : ∀ b ∈ l, r.timestamp ≤ b.timestamp) : insertRow r l = r :: l := by
  match l with
  | [] => rfl
  | x :: xs => rw [insertRow, if_pos (h x (by simp))]

theorem insSort_eq_of_sorted {l : List Row} (h : SortedTs l) : insSort l = l := by
  induction l with
  | nil => rfl
  | cons x xs ih =>
    rcases List.pairwise_cons.mp h with ⟨hx, hxs⟩
    rw [insSort, ih hxs, insertRow_of_le hx]

theorem filterTs_cons (t : Int) (r : Row) (l : List Row) :
    filterTs t (r :: l) =
      if r.timestamp = t then r :: filterTs t l else filterTs t l := by
  rw [filterTs, List.filter_cons]
  by_cases h : r.timestamp = t
  · simp [h, filterTs]
  · simp [h, filterTs]

theorem filterTs_insertRow (t : Int) (r : Row) (l : List Row) :
    filterTs t (insertRow r l) = filterTs t (r :: l) := by
  induction l with
  | nil => rfl
  | cons x xs ih =>
    rw [insertRow]
    split
    · rfl
    · next hgt =>
      simp only [filterTs_cons] at ih ⊢
      rw [ih]
      by_cases hr : r.timestamp = t
      · have hx : ¬ x.timestamp = t := by omega
        simp [hx, hr]
      · by_cases hx : x.timestamp = t
        · simp [hx, hr]
        · simp [hx, hr]

theorem filterTs_insSort (t : Int) (l : List Row) :
    filterTs t (insSort l) = filterTs t l := by
  induction l with
  | nil => rfl
  | cons x xs ih =>
    rw [insSort, filterTs_insertRow]
    simp only [filterTs_cons, ih]

theorem dedupKeepLast_sublist (l : List Row) :
    List.Sublist (dedupKeepLast l) l := by
  induction l with
  | nil => exact List.Sublist.refl _
  | cons r rs ih =>
    rw [dedupKeepLast]
    split
    · exact ih.cons r
    · exact ih.cons₂ r

theorem dedupKeepLast_sorted {l : List Row} (h : SortedTs l) :
    SortedTs (dedupKeepLast l) :=
  h.sublist (dedupKeepLast_sublist l)

theorem filterTs_eq_nil_of_not_any {t : Int} {l : List Row}
    (h : l.any (fun x => x.timestamp == t) = false) : filterTs t l = [] := by
  rw [filterTs, List.filter_eq_nil_iff]
  intro a ha
  have := List.any_eq_false.mp h a ha
  simpa using this

theorem filterTs_ne_nil_of_any {t : Int} {l : List Row}
    (h : l.any (fun x => x.timestamp == t) = true) : filterTs t l ≠ [] := by
  rcases List.any_eq_true.mp h with ⟨a, ha, hat⟩
  rw [filterTs]
  intro hnil
  rw [List.filter_eq_nil_iff] at hnil
  exact hnil a ha hat

theorem lastOf?_cons_of_ne_nil (r : α) {l : List α} (h : l ≠ []) :
    lastOf? (r :: l) = lastOf? l := by
  match l with
  | [] => exact absurd rfl h
  | b :: bs => rfl

/-- Key dedup characterization: after the keep-last dedup, the rows at
timestamp `t` are exactly the last row at `t` of the input, if any. -/
theorem filterTs_dedupKeepLast (t : Int) (l : List Row) :
    filterTs t (dedupKeepLast l) = (lastOf? (filterTs t l)).toList := by
  induction l with
  | nil => rfl
  | cons r rs ih =>
    rw [dedupKeepLast]
    split
    · next hany =>
      by_cases hr : r.timestamp = t
      · have hrs : filterTs t rs ≠ [] := by
          apply filterTs_ne_nil_of_any
          rw [← hr]
          exact hany
        rw [ih, filterTs_cons, if_pos hr, lastOf?_cons_of_ne_nil r hrs]
      · rw [ih, filterTs_cons, if_neg hr]
    · next hany =>
      have hany2 : rs.any (fun x => x.timestamp == r.timestamp) = false :=
        Bool.of_not_eq_true hany
      by_cases hr : r.timestamp = t
      · have hrs : filterTs t rs = [] := by
          apply filterTs_eq_nil_of_not_any
          rw [← hr]
          exact hany2
        have hddl : filterTs t (dedupKeepLast rs) = [] := by
          rw [ih, hrs]
          rfl
        rw [filterTs_cons, if_pos hr, hddl, filterTs_cons, if_pos hr, hrs]
        rfl
      · rw [filterTs_cons, if_neg hr, ih, filterTs_cons, if_neg hr]

theorem dedupKeepLast_eq_of_nodup {l : List Row}
    (h : (l.map Row.timestamp).Nodup) : dedupKeepLast l = l := by
  induction l with
  | nil => rfl
  | cons r rs ih =>
    rw [List.map_cons, List.nodup_cons] at h
    rw [dedupKeepLast]
    have hany : rs.any (fun x => x.timestamp == r.timestamp) = false := by
      rw [List.any_eq_false]
      intro a ha
      simp only [beq_iff_eq]
      intro hat
      exact h.1 (hat ▸ List.mem_map_of_mem Row.timestamp ha)
    rw [hany]
    simp only [Bool.false_eq_true, if_false]
    rw [ih h.2]

theorem dedupKeepLast_ne_nil {l : List Row} (h : l ≠ []) : dedupKeepLast l ≠ [] := by
  induction l with
  | nil => exact absurd rfl h
  | cons r rs ih =>
    rw [dedupKeepLast]
    split
    · next hany =>
      rcases List.any_eq_true.mp hany with ⟨a, ha, _⟩
      exact ih (List.ne_nil_of_mem ha)
    · simp

theorem lastOf?_isSome_of_ne_nil {l : List α} (h : l ≠ []) : ∃ a, lastOf? l = some a := by
  induction l with
  | nil => exact absurd rfl h
  | cons x xs ih =>
    match xs with
    | [] => exact ⟨x, rfl⟩
    | y :: ys => exact ih (by simp)

theorem mem_dedupKeepLast {a : Row} {l : List Row} (h : a ∈ dedupKeepLast l) : a ∈ l :=
  (dedupKeepLast_sublist l).mem h

/-! ## Claim theorems about the store -/

/-- Claim C10: when the active shard file does not exist, `load_data` returns
`None` whatever the archives hold, for either value of `include_archives`;
conversely a non-`None` result can only arise when the active shard exists. -/
theorem c10_absent_active_shard (fs : StoreFS) (b : Bool) (h : fs.active = none) :
    load_data b fs = none
  ∧ (∀ (fs2 : StoreFS) (b2 : Bool) (rows : List Row),
      load_data b2 fs2 = some rows → fs2.active ≠ none) := by
  constructor
  · rw [load_data, h]
  · intro fs2 b2 rows hsome hnone
    rw [load_data, hnone] at hsome
    exact Option.noConfusion hsome

/-- Concrete instance for C10: archives hold data, the active shard is absent,
and the load still reports an absent result. -/
theorem c10_absent_active_shard_witness :
    load_data true ⟨none, [("2025-01", [⟨1, 990, 99⟩])], 0, []⟩ = none :=
  (c10_absent_active_shard ⟨none, [("2025-01", [⟨1, 990, 99⟩])], 0, []⟩ true rfl).1

/-- Claim C1 fails as stated: `load_data` appends the ACTIVE shard's frame
first and the archive frames after it, so at a shared timestamp the surviving
record is the archive one, not the active one that the claim (which puts the
active shard last in the merge order) predicts.  Active record `(5, 100 Pa)`,
archive record `(5, 200 Pa)`: the load returns the archive record. -/
theorem c1_counterexample :
    load_data true ⟨some ⟨true, [⟨5, 100, 1⟩]⟩, [("2025-09", [⟨5, 200, 2⟩])], 0, []⟩ =
      some [⟨5, 200, 2⟩]
  ∧ load_data true ⟨some ⟨true, [⟨5, 100, 1⟩]⟩, [("2025-09", [⟨5, 200, 2⟩])], 0, []⟩ ≠
      some [⟨5, 100, 1⟩] := by
  decide

theorem lastOf?_mem {l : List α} {a : α} (h : lastOf? l = some a) : a ∈ l := by
  induction l with
  | nil => exact Option.noConfusion h
  | cons x xs ih =>
    cases xs with
    | nil =>
      have h2 : some x = some a := h
      injection h2 with h3
      subst h3
      exact List.mem_singleton_self x
    | cons y ys =>
      exact List.mem_cons_of_mem x (ih h)

theorem perm_filterTs {l1 l2 : List Row} (h : List.Perm l1 l2) (t : Int) :
    List.Perm (filterTs t l1) (filterTs t l2) := by
  rw [filterTs, filterTs]
  exact h.filter _

/-- Claim C1 (amended): for every store with an active shard,
`load_data(include_archives=True)` merges the ACTIVE shard's frame first and
the archive frames after it, sorts by timestamp and dedups keeping the last
occurrence.  `sort_values`'s default quicksort guarantees only a sorted
permutation of the merged rows, so the theorem quantifies over every such
permutation `srt`: whatever the sort produced, the result is sorted ascending
with at most one record per timestamp — exactly one, drawn from the shard
records bearing it, when some shard has that timestamp.  Which record survives
a tie is whichever the sort left last; under the stability hypothesis that the
sort kept the tied rows at `t` in their merge order (as pandas' sort does on
small frames, e.g. the two-row store of the counterexample) the survivor is
the record of the shard encountered later in the merge order — an archive
record in an active/archive tie, the opposite of the order the original claim
asserts.  The model's executable sort `insSort` is itself one admissible
permutation, which ties `load_data`'s output to this analysis. -/
theorem c1_dedup_tie_break (fs : StoreFS) (f : CsvFile) (t : Int)
    (all srt : List Row)
    (hf : fs.active = some f)
    (hall : all = f.rows ++ (fs.archives.map Prod.snd).flatten)
    (hperm : List.Perm srt all)
    (hsorted : SortedTs srt) :
    load_data true fs = some (dedupKeepLast (insSort all))
  ∧ List.Perm (insSort all) all
  ∧ SortedTs (insSort all)
  ∧ SortedTs (dedupKeepLast srt)
  ∧ (filterTs t all = [] → filterTs t (dedupKeepLast srt) = [])
  ∧ (filterTs t all ≠ [] →
      ∃ r, filterTs t (dedupKeepLast srt) = [r] ∧ r ∈ filterTs t all)
  ∧ (filterTs t srt = filterTs t all →
      filterTs t (dedupKeepLast srt) = (lastOf? (filterTs t all)).toList) := by
  have hps : List.Perm (filterTs t srt) (filterTs t all) := perm_filterTs hperm t
  refine ⟨?_, insSort_perm all, insSort_sorted all, dedupKeepLast_sorted hsorted,
    ?_, ?_, ?_⟩
  · rw [load_data, hf, hall]
    rfl
  · intro hnil
    rw [hnil] at hps
    rw [filterTs_dedupKeepLast, hps.eq_nil]
    rfl
  · intro hne
    have hsrt_ne : filterTs t srt ≠ [] := by
      intro h0
      rw [h0] at hps
      exact hne (hps.symm.eq_nil)
    rcases lastOf?_isSome_of_ne_nil hsrt_ne with ⟨r, hr⟩
    refine ⟨r, ?_, ?_⟩
    · rw [filterTs_dedupKeepLast, hr]
      rfl
    · exact hps.mem_iff.mp (lastOf?_mem hr)
  · intro hstab
    rw [filterTs_dedupKeepLast, hstab]

/-- Concrete instance for C1 (amended): one active and one archive record share
timestamp 1; the two-row sorted permutation keeps the merge order (stability
holds at this size), so the archive record survives. -/
theorem c1_dedup_tie_break_witness :
    ([(⟨1, 10, 1⟩ : Row), ⟨1, 20, 2⟩] =
      [(⟨1, 10, 1⟩ : Row)] ++ (([("2025-09", [(⟨1, 20, 2⟩ : Row)])].map Prod.snd).flatten))
  ∧ SortedTs [(⟨1, 10, 1⟩ : Row), ⟨1, 20, 2⟩]
  ∧ filterTs 1 [(⟨1, 10, 1⟩ : Row), ⟨1, 20, 2⟩] = filterTs 1 [(⟨1, 10, 1⟩ : Row), ⟨1, 20, 2⟩]
  ∧ filterTs 1 (dedupKeepLast [(⟨1, 10, 1⟩ : Row), ⟨1, 20, 2⟩]) =
      (lastOf? (filterTs 1 [(⟨1, 10, 1⟩ : Row), ⟨1, 20, 2⟩])).toList
  ∧ load_data true ⟨some ⟨true, [⟨1, 10, 1⟩]⟩, [("2025-09", [⟨1, 20, 2⟩])], 0, []⟩ =
      some (dedupKeepLast (insSort [(⟨1, 10, 1⟩ : Row), ⟨1, 20, 2⟩])) :=
  ⟨rfl, by unfold SortedTs; decide, rfl,
   (c1_dedup_tie_break ⟨some ⟨true, [⟨1, 10, 1⟩]⟩, [("2025-09", [⟨1, 20, 2⟩])], 0, []⟩
      ⟨true, [⟨1, 10, 1⟩]⟩ 1 [⟨1, 10, 1⟩, ⟨1, 20, 2⟩] [⟨1, 10, 1⟩, ⟨1, 20, 2⟩]
      rfl rfl (List.Perm.refl _) (by unfold SortedTs; decide)).2.2.2.2.2.2 rfl,
   (c1_dedup_tie_break ⟨some ⟨true, [⟨1, 10, 1⟩]⟩, [("2025-09", [⟨1, 20, 2⟩])], 0, []⟩
      ⟨true, [⟨1, 10, 1⟩]⟩ 1 [⟨1, 10, 1⟩, ⟨1, 20, 2⟩] [⟨1, 10, 1⟩, ⟨1, 20, 2⟩]
      rfl rfl (List.Perm.refl _) (by unfold SortedTs; decide)).1⟩

theorem appendAll_some (ps : List (Int × Nat)) (f : CsvFile) :
    appendAll ps (some f) =
      some ⟨f.hasHeader, f.rows ++ ps.map (fun q => mkReading q.1 q.2)⟩ := by
  induction ps generalizing f with
  | nil => simp [appendAll]
  | cons q qs ih =>
    obtain ⟨t, p⟩ := q
    rw [appendAll, save_reading, ih]
    simp

theorem appendAll_none {ps : List (Int × Nat)} (hne : ps ≠ []) :
    appendAll ps none = some ⟨true, ps.map (fun q => mkReading q.1 q.2)⟩ := by
  match ps with
  | (t, p) :: qs =>
    rw [appendAll, save_reading, appendAll_some]
    simp

/-- Claim C3 fails as stated: two `save_reading` calls that land on the same
timestamp (the wall clock has sub-second granularity and may repeat or move
backwards) are collapsed by the timestamp dedup inside `load_data`, so the load
returns 1 record after 2 appends. -/
theorem c3_counterexample :
    (load_data false ⟨appendAll [(5, 100), (5, 200)] none, [], 0, []⟩).map List.length =
      some 1
  ∧ ([(5, 100), (5, 200)] : List (Int × Nat)).length = 2
  ∧ (1 : Nat) ≠ 2 :=
  ⟨rfl, rfl, by decide⟩

/-- Claim C3 (amended): for every nonempty sequence of `save_reading` calls
starting from an absent store whose insertion timestamps are strictly
increasing, the first call creates the shard with its header, every call only
appends (each earlier state's rows stay an unchanged initial segment), and
`load_data(include_archives=False)` returns exactly N records in append order
with the insertion timestamps. -/
theorem c3_append_then_load (ps : List (Int × Nat))
    (hne : ps ≠ [])
    (hmono : ps.Pairwise (fun a b => a.1 < b.1))
    (archList : List (String × List Row)) (lb : Nat) (al : List (String × Nat)) :
    ∃ f, appendAll ps none = some f
      ∧ f.hasHeader = true
      ∧ f.rows = ps.map (fun q => mkReading q.1 q.2)
      ∧ f.rows.length = ps.length
      ∧ (∀ k, ∃ rest, f.rows = rowsOf (appendAll (ps.take k) none) ++ rest)
      ∧ load_data false ⟨appendAll ps none, archList, lb, al⟩ =
          some (ps.map (fun q => mkReading q.1 q.2)) := by
  have happ := appendAll_none hne
  refine ⟨_, happ, rfl, rfl, by simp, ?_, ?_⟩
  · intro k
    by_cases htk : ps.take k = []
    · refine ⟨ps.map (fun q => mkReading q.1 q.2), ?_⟩
      rw [htk]
      rfl
    · refine ⟨(ps.drop k).map (fun q => mkReading q.1 q.2), ?_⟩
      rw [appendAll_none htk]
      show ps.map _ = (ps.take k).map _ ++ (ps.drop k).map _
      rw [← List.map_append, List.take_append_drop]
  · rw [happ, load_data]
    have hsorted : SortedTs (ps.map (fun q => mkReading q.1 q.2)) := by
      rw [SortedTs, List.pairwise_map]
      exact hmono.imp fun h => le_of_lt h
    have hnodup : ((ps.map (fun q => mkReading q.1 q.2)).map Row.timestamp).Nodup := by
      rw [List.map_map]
      rw [show ((Row.timestamp ∘ fun q : Int × Nat => mkReading q.1 q.2) = fun q => q.1)
        from rfl]
      rw [List.Nodup, List.pairwise_map]
      exact hmono.imp fun h => ne_of_lt h
    simp only [if_neg (Bool.false_ne_true), List.append_nil]
    rw [insSort_eq_of_sorted hsorted, dedupKeepLast_eq_of_nodup hnodup]

/-- Concrete instance for C3 (amended): two appends at timestamps 1 and 2. -/
theorem c3_append_then_load_witness :
    ([(1, 10), (2, 20)] : List (Int × Nat)) ≠ []
  ∧ ([(1, 10), (2, 20)] : List (Int × Nat)).Pairwise (fun a b => a.1 < b.1)
  ∧ ∃ f, appendAll [(1, 10), (2, 20)] none = some f ∧ f.hasHeader = true
      ∧ f.rows.length = 2 :=
  ⟨by decide, by decide,
   (c3_append_then_load [(1, 10), (2, 20)] (by decide) (by decide) [] 0 []).elim
     fun f h => ⟨f, h.1, h.2.1, by rw [h.2.2.2.1]; rfl⟩⟩

/-! ## Lemmas about `rotateLog`, `archiveData` and the archive directory -/

theorem assocLookup_assocPut (k : String) (v : α) (l : List (String × α)) :
    assocLookup k (assocPut k v l) = some v := by
  induction l with
  | nil => simp [assocPut, assocLookup]
  | cons p l ih =>
    obtain ⟨k2, v2⟩ := p
    rw [assocPut]
    by_cases h : k2 == k
    · rw [if_pos h, assocLookup, if_pos h]
    · rw [if_neg h, assocLookup, if_neg h]
      exact ih

theorem assocPut_keys {k : String} {v A : α} {l : List (String × α)}
    (h : assocLookup k l = some A) :
    (assocPut k v l).map Prod.fst = l.map Prod.fst := by
  induction l with
  | nil => exact absurd h (by simp [assocLookup])
  | cons p l ih =>
    obtain ⟨k2, v2⟩ := p
    rw [assocLookup] at h
    rw [assocPut]
    by_cases hk : k2 == k
    · rw [if_pos hk]
      rfl
    · rw [if_neg hk]
      rw [if_neg hk] at h
      simp only [List.map_cons]
      rw [ih h]

theorem load_data_congr (b : Bool) {fs1 fs2 : StoreFS}
    (ha : fs1.active = fs2.active) (har : fs1.archives = fs2.archives) :
    load_data b fs1 = load_data b fs2 := by
  rw [load_data, load_data, ha, har]

theorem load_data_false_some {fs : StoreFS} {f : CsvFile} (hf : fs.active = some f) :
    load_data false fs = some (dedupKeepLast (insSort f.rows)) := by
  rw [load_data, hf]
  simp

theorem rotateLog_spec (ym : String) (fs : StoreFS) :
    (rotateLog ym fs).1.active = fs.active
  ∧ (rotateLog ym fs).1.archives = fs.archives
  ∧ (rotateLog ym fs).1.logBytes ≤ 10 * 1024 * 1024 := by
  rw [rotateLog]
  split
  · exact ⟨rfl, rfl, by show (0 : Nat) ≤ _; omega⟩
  · next h => exact ⟨rfl, rfl, by show fs.logBytes ≤ _; omega⟩

theorem rotateLog_noop (ym : String) {fs : StoreFS}
    (h : fs.logBytes ≤ 10 * 1024 * 1024) : rotateLog ym fs = (fs, 0) := by
  rw [rotateLog, if_neg (by omega)]

theorem isEmpty_false_of_ne_nil {l : List α} (h : l ≠ []) : l.isEmpty = false := by
  rw [Bool.eq_false_iff]
  intro h2
  exact h (List.isEmpty_iff.mp h2)

/-- `archiveData` when the load yields rows and some row is strictly older
than the cutoff: the old rows go to `<ym>/readings_archive.csv`, the recent
rows (with a header) become the active shard, one item is counted. -/
theorem archiveData_some {cutoff : Int} (ym : String) {fs : StoreFS} {df : List Row}
    (hdf : load_data false fs = some df) (hne : df ≠ [])
    (holdne : df.filter (fun r => decide (r.timestamp < cutoff)) ≠ []) :
    archiveData cutoff ym fs =
      ({ fs with
          active := some ⟨true, df.filter (fun r => decide (cutoff ≤ r.timestamp))⟩,
          archives := assocPut ym (df.filter (fun r => decide (r.timestamp < cutoff))) fs.archives },
        1) := by
  rw [archiveData, hdf]
  simp only [isEmpty_false_of_ne_nil hne, Bool.false_eq_true, if_false,
    isEmpty_false_of_ne_nil holdne]

theorem archiveData_all_old {cutoff : Int} (ym : String) {fs : StoreFS} {df : List Row}
    (hdf : load_data false fs = some df) (hne : df ≠ [])
    (hold : ∀ r ∈ df, r.timestamp < cutoff) :
    archiveData cutoff ym fs =
      ({ fs with
          active := some ⟨true, []⟩,
          archives := assocPut ym df fs.archives },
        1) := by
  have hfilter_old : df.filter (fun r => decide (r.timestamp < cutoff)) = df :=
    List.filter_eq_self.mpr fun a ha => decide_eq_true (hold a ha)
  have hfilter_recent : df.filter (fun r => decide (cutoff ≤ r.timestamp)) = [] := by
    rw [List.filter_eq_nil_iff]
    intro a ha
    have := hold a ha
    simp only [decide_eq_true_eq]
    omega
  rw [archiveData, hdf]
  simp only [isEmpty_false_of_ne_nil hne, Bool.false_eq_true, if_false,
    hfilter_old, hfilter_recent]

/-- Unfolding of `archive` into its two phases. -/
theorem archive_phases (keep_days : Nat) (now : Int) (ym : String) (fs : StoreFS) :
    archive keep_days now ym fs =
      ((archiveData (now - (keep_days : Int) * 86400) ym (rotateLog ym fs).1).1,
        (rotateLog ym fs).2 +
          (archiveData (now - (keep_days : Int) * 86400) ym (rotateLog ym fs).1).2) :=
  rfl

/-- Claim C6 fails as stated when two records share a timestamp: the active
shard holds records `(0, 1 Pa)` and `(0, 2 Pa)`, both far older than the 90-day
cutoff; the archive run empties the active shard but the archive shard ends up
with one record only — the first record was dropped by the timestamp dedup, not
moved into the archive. -/
theorem c6_counterexample :
    (archive 90 (100 * 86400) "2025-10"
        ⟨some ⟨true, [⟨0, 1, 1⟩, ⟨0, 2, 2⟩]⟩, [], 0, []⟩).1.active =
      some ⟨true, []⟩
  ∧ assocLookup "2025-10"
      (archive 90 (100 * 86400) "2025-10"
        ⟨some ⟨true, [⟨0, 1, 1⟩, ⟨0, 2, 2⟩]⟩, [], 0, []⟩).1.archives =
      some [⟨0, 2, 2⟩]
  ∧ ((⟨0, 1, 1⟩ : Row) ∈ [(⟨0, 2, 2⟩ : Row)] → False)
  ∧ ([(⟨0, 2, 2⟩ : Row)].length ≠ [(⟨0, 1, 1⟩ : Row), ⟨0, 2, 2⟩].length) := by
  decide

/-- Claim C6 (amended): on a store whose active-shard records have pairwise
distinct timestamps and are all strictly older than `now - keep_days` days,
`archive` moves 100% of the records out of the active shard into the archive
shard of the current year-month and leaves the active shard empty (header
only); running `archive` again on the result is a no-op reporting zero
archived items.  (Records sharing a timestamp are first collapsed to the last
one by the load-side dedup, hence the distinctness hypothesis.) -/
theorem c6_archive_all_then_noop (fs : StoreFS) (f : CsvFile) (keep_days : Nat)
    (now : Int) (ym : String)
    (hf : fs.active = some f) (hne : f.rows ≠ [])
    (hnd : (f.rows.map Row.timestamp).Nodup)
    (hold : ∀ r ∈ f.rows, r.timestamp < now - (keep_days : Int) * 86400) :
    ∃ old, (archive keep_days now ym fs).1.active = some { hasHeader := true, rows := [] }
      ∧ assocLookup ym (archive keep_days now ym fs).1.archives = some old
      ∧ List.Perm old f.rows
      ∧ (∀ (kd2 : Nat) (now2 : Int) (ym2 : String),
          archive kd2 now2 ym2 (archive keep_days now ym fs).1 =
            ((archive keep_days now ym fs).1, 0)) := by
  obtain ⟨h1, h2, h3⟩ := rotateLog_spec ym fs
  have hsortnd : ((insSort f.rows).map Row.timestamp).Nodup :=
    (((insSort_perm f.rows).map Row.timestamp).nodup_iff).mpr hnd
  have hdf : load_data false (rotateLog ym fs).1 =
      some (dedupKeepLast (insSort f.rows)) :=
    load_data_false_some (h1.trans hf)
  have hins_ne : insSort f.rows ≠ [] := by
    intro h0
    have hlen := (insSort_perm f.rows).length_eq
    rw [h0] at hlen
    exact hne (List.eq_nil_of_length_eq_zero hlen.symm)
  have hdedup : dedupKeepLast (insSort f.rows) = insSort f.rows :=
    dedupKeepLast_eq_of_nodup hsortnd
  have hdf_ne : dedupKeepLast (insSort f.rows) ≠ [] := by
    rw [hdedup]
    exact hins_ne
  have hdf_old : ∀ r ∈ dedupKeepLast (insSort f.rows),
      r.timestamp < now - (keep_days : Int) * 86400 := fun r hr =>
    hold r ((insSort_perm f.rows).mem_iff.mp (mem_dedupKeepLast hr))
  have hstep := archiveData_all_old ym hdf hdf_ne hdf_old
  have harch : (archive keep_days now ym fs).1 =
      ({ (rotateLog ym fs).1 with
          active := some ⟨true, []⟩,
          archives := assocPut ym (dedupKeepLast (insSort f.rows)) (rotateLog ym fs).1.archives } :
        StoreFS) := by
    rw [archive_phases, hstep]
  refine ⟨dedupKeepLast (insSort f.rows), ?_, ?_, ?_, ?_⟩
  · rw [harch]
  · rw [harch]
    exact assocLookup_assocPut ym _ _
  · rw [hdedup]
    exact insSort_perm f.rows
  · intro kd2 now2 ym2
    rw [harch]
    have hlog2 : ({ (rotateLog ym fs).1 with
        active := some ⟨true, []⟩,
        archives := assocPut ym (dedupKeepLast (insSort f.rows)) (rotateLog ym fs).1.archives } :
        StoreFS).logBytes ≤ 10 * 1024 * 1024 := h3
    have hrot2 := rotateLog_noop ym2 hlog2
    rw [archive_phases, hrot2]
    have hload2 : load_data false ({ (rotateLog ym fs).1 with
        active := some ⟨true, []⟩,
        archives := assocPut ym (dedupKeepLast (insSort f.rows)) (rotateLog ym fs).1.archives } :
        StoreFS) = some [] := by
      rw [load_data_false_some rfl]
      rfl
    show ((archiveData _ ym2 _).1, 0 + (archiveData _ ym2 _).2) = _
    rw [archiveData, hload2]
    rfl

/-- Concrete instance for C6 (amended): one record, 100 days old,
`keep_days = 90`. -/
theorem c6_archive_all_then_noop_witness :
    ((⟨some ⟨true, [⟨0, 5, 1⟩]⟩, [], 0, []⟩ : StoreFS).active = some ⟨true, [⟨0, 5, 1⟩]⟩)
  ∧ ([(⟨0, 5, 1⟩ : Row)] ≠ [])
  ∧ (([(⟨0, 5, 1⟩ : Row)].map Row.timestamp).Nodup)
  ∧ (∀ r ∈ [(⟨0, 5, 1⟩ : Row)], r.timestamp < 100 * 86400 - (90 : Nat) * 86400)
  ∧ ∃ old,
      (archive 90 (100 * 86400) "2025-10"
        ⟨some ⟨true, [⟨0, 5, 1⟩]⟩, [], 0, []⟩).1.active = some ⟨true, []⟩
      ∧ assocLookup "2025-10"
          (archive 90 (100 * 86400) "2025-10"
            ⟨some ⟨true, [⟨0, 5, 1⟩]⟩, [], 0, []⟩).1.archives = some old
      ∧ List.Perm old [⟨0, 5, 1⟩] :=
  ⟨rfl, by decide, by decide, by decide,
   (c6_archive_all_then_noop ⟨some ⟨true, [⟨0, 5, 1⟩]⟩, [], 0, []⟩ ⟨true, [⟨0, 5, 1⟩]⟩
      90 (100 * 86400) "2025-10" rfl (by decide) (by decide) (by decide)).elim
     fun old h => ⟨old, h.1, h.2.1, h.2.2.1⟩⟩

/-- Claim C9: every data-archiving run writes the relocated rows to the fixed
name `readings_archive.csv` inside the current year-month's archive directory,
so when that directory already holds an archive shard, a run that archives any
records replaces that shard's content and adds no new shard beside it (the set
and order of archive files is unchanged). -/
theorem c9_same_month_overwrite (fs : StoreFS) (ym : String) (A df : List Row)
    (keep_days : Nat) (now : Int)
    (hA : assocLookup ym fs.archives = some A)
    (hdf : load_data false fs = some df)
    (hold : df.filter (fun r => decide (r.timestamp < now - (keep_days : Int) * 86400)) ≠ []) :
    assocLookup ym (archive keep_days now ym fs).1.archives =
      some (df.filter (fun r => decide (r.timestamp < now - (keep_days : Int) * 86400)))
  ∧ (archive keep_days now ym fs).1.archives.map Prod.fst = fs.archives.map Prod.fst := by
  obtain ⟨h1, h2, h3⟩ := rotateLog_spec ym fs
  have hdf1 : load_data false (rotateLog ym fs).1 = some df :=
    (load_data_congr false h1 h2).trans hdf
  have hdfne : df ≠ [] := by
    intro h0
    rw [h0] at hold
    exact hold rfl
  have hstep := archiveData_some ym hdf1 hdfne hold
  have harch : (archive keep_days now ym fs).1.archives =
      assocPut ym (df.filter (fun r =>
        decide (r.timestamp < now - (keep_days : Int) * 86400)))
        (rotateLog ym fs).1.archives := by
    rw [archive_phases, hstep]
  have hA1 : assocLookup ym (rotateLog ym fs).1.archives = some A := by
    rw [h2]
    exact hA
  constructor
  · rw [harch]
    exact assocLookup_assocPut ym _ _
  · rw [harch, assocPut_keys hA1, h2]

/-- Concrete instance for C9: the September directory already holds one shard;
a later run in the same month replaces it with the new old rows. -/
theorem c9_same_month_overwrite_witness :
    assocLookup "2025-09"
      ([("2025-09", [(⟨-5, 3, 1⟩ : Row)])] : List (String × List Row)) = some [⟨-5, 3, 1⟩]
  ∧ load_data false ⟨some ⟨true, [⟨0, 7, 1⟩]⟩, [("2025-09", [⟨-5, 3, 1⟩])], 0, []⟩ =
      some [⟨0, 7, 1⟩]
  ∧ assocLookup "2025-09"
      (archive 0 1 "2025-09"
        ⟨some ⟨true, [⟨0, 7, 1⟩]⟩, [("2025-09", [⟨-5, 3, 1⟩])], 0, []⟩).1.archives =
      some ([⟨0, 7, 1⟩].filter (fun r => decide (r.timestamp < 1 - ((0 : Nat) : Int) * 86400)))
  ∧ (archive 0 1 "2025-09"
        ⟨some ⟨true, [⟨0, 7, 1⟩]⟩, [("2025-09", [⟨-5, 3, 1⟩])], 0, []⟩).1.archives.map
      Prod.fst = ["2025-09"] :=
  ⟨by decide, by decide,
   (c9_same_month_overwrite ⟨some ⟨true, [⟨0, 7, 1⟩]⟩, [("2025-09", [⟨-5, 3, 1⟩])], 0, []⟩
      "2025-09" [⟨-5, 3, 1⟩] [⟨0, 7, 1⟩] 0 1 (by decide) (by decide) (by decide)).1,
   (c9_same_month_overwrite ⟨some ⟨true, [⟨0, 7, 1⟩]⟩, [("2025-09", [⟨-5, 3, 1⟩])], 0, []⟩
      "2025-09" [⟨-5, 3, 1⟩] [⟨0, 7, 1⟩] 0 1 (by decide) (by decide) (by decide)).2⟩

/-! ## Claim theorems about the lifecycle controller -/

/-- Claim C2 fails as stated on the order of the two writes: the source writes
the flag (`state_file.write_text('running')`) first and the interval record
second, not the other way round.  The two orders are observably different when
the second write fails: the source leaves the interval file untouched, while
the claimed order (modelled by `start_claim_order`) would have already written
it. -/
theorem c2_counterexample :
    start_monitoring ⟨none, none⟩ 60 true false ≠ start_claim_order ⟨none, none⟩ 60 true false
  ∧ (start_monitoring ⟨none, none⟩ 60 true false).1.intervalFile = none
  ∧ (start_claim_order ⟨none, none⟩ 60 true false).1.intervalFile = some (natToStr 60) := by
  decide

/-- Claim C2 (amended): `start_monitoring(interval)` fails with the
already-running result when the flag file is present with content that strips
to `"running"` (so a second `start` immediately after a successful one fails
this way); otherwise it writes the FLAG first and the interval record second,
and on any write failure it removes any partially written flag file and
returns the error to the caller, leaving the interval file as it was. -/
theorem start_already (fs : LifecycleFS) (h : is_monitoring fs.stateFile = true)
    (n : Nat) (w1 w2 : Bool) :
    start_monitoring fs n w1 w2 = (fs, StartOutcome.alreadyRunning) := by
  rw [start_monitoring, if_pos h]

theorem start_w1_fails {fs : LifecycleFS} (h : is_monitoring fs.stateFile = false)
    (n : Nat) (w2 : Bool) :
    start_monitoring fs n false w2 = ({ fs with stateFile := none }, StartOutcome.failed) := by
  rw [start_monitoring, if_neg (by rw [h]; exact Bool.false_ne_true), if_pos rfl]

theorem start_w2_fails {fs : LifecycleFS} (h : is_monitoring fs.stateFile = false)
    (n : Nat) :
    start_monitoring fs n true false = ({ fs with stateFile := none }, StartOutcome.failed) := by
  rw [start_monitoring, if_neg (by rw [h]; exact Bool.false_ne_true),
    if_neg (by decide), if_pos rfl]

theorem start_success {fs : LifecycleFS} (h : is_monitoring fs.stateFile = false)
    (n : Nat) :
    start_monitoring fs n true true =
      (⟨some "running", some (natToStr n)⟩, StartOutcome.started) := by
  rw [start_monitoring, if_neg (by rw [h]; exact Bool.false_ne_true),
    if_neg (by decide), if_neg (by decide)]

theorem c2_start_monitoring (fs : LifecycleFS) (n : Nat) (w1 w2 : Bool) :
    (is_monitoring fs.stateFile = true →
      start_monitoring fs n w1 w2 = (fs, StartOutcome.alreadyRunning))
  ∧ (is_monitoring fs.stateFile = false → w1 = true → w2 = true →
      start_monitoring fs n w1 w2 =
        (⟨some "running", some (natToStr n)⟩, StartOutcome.started))
  ∧ (is_monitoring fs.stateFile = false → (w1 = false ∨ w2 = false) →
      start_monitoring fs n w1 w2 =
        ({ fs with stateFile := none }, StartOutcome.failed))
  ∧ (∀ (m : Nat) (v1 v2 : Bool), (start_monitoring fs n w1 w2).2 = StartOutcome.started →
      (start_monitoring (start_monitoring fs n w1 w2).1 m v1 v2).2 =
        StartOutcome.alreadyRunning) := by
  refine ⟨fun h => start_already fs h n w1 w2, ?_, ?_, ?_⟩
  · intro h h1 h2
    rw [h1, h2]
    exact start_success h n
  · intro h hw
    rcases hw with hw | hw
    · rw [hw]
      exact start_w1_fails h n w2
    · rw [hw]
      cases w1 with
      | false => exact start_w1_fails h n false
      | true => exact start_w2_fails h n
  · intro m v1 v2 hstart
    by_cases h : is_monitoring fs.stateFile = true
    · rw [start_already fs h n w1 w2] at hstart
      exact StartOutcome.noConfusion hstart
    · rw [Bool.not_eq_true] at h
      cases w1 with
      | false =>
        rw [start_w1_fails h n w2] at hstart
        exact StartOutcome.noConfusion hstart
      | true =>
        cases w2 with
        | false =>
          rw [start_w2_fails h n] at hstart
          exact StartOutcome.noConfusion hstart
        | true =>
          rw [start_success h n]
          rw [start_already ⟨some "running", some (natToStr n)⟩
            (show is_monitoring (some "running") = true by decide) m v1 v2]

/-- Concrete instance for C2 (amended): a successful start from a clean state,
then a second start that is refused. -/
theorem c2_start_monitoring_witness :
    is_monitoring (⟨none, none⟩ : LifecycleFS).stateFile = false
  ∧ start_monitoring ⟨none, none⟩ 300 true true =
      (⟨some "running", some (natToStr 300)⟩, StartOutcome.started)
  ∧ (start_monitoring (start_monitoring ⟨none, none⟩ 300 true true).1 300 true true).2 =
      StartOutcome.alreadyRunning :=
  ⟨by decide,
   (c2_start_monitoring ⟨none, none⟩ 300 true true).2.1 (by decide) rfl rfl,
   (c2_start_monitoring ⟨none, none⟩ 300 true true).2.2.2 300 true true (by decide)⟩

/-- Claim C8 fails as stated on "content exactly `running`": `is_monitoring`
strips whitespace before comparing, so the flag content `"running\n"` is
reported as running although it is not exactly `"running"`. -/
theorem c8_counterexample :
    (get_monitor_info ⟨some "running\n", some "120"⟩).running = true
  ∧ ("running\n" : String) ≠ "running" := by
  decide

/-- Claim C8 (amended): `get_monitor_info` is a pure read (a function of the
two file contents, modifying nothing) that reports `running = true` exactly
when the flag file is present with content that strips to `"running"` (any
other content counts as not running); while running it reports the interval
parsed from the interval record, falling back to the default 300 when the
record is absent or unparseable, and while not running it reports no
interval. -/
theorem c8_status_report (fs : LifecycleFS) :
    ((get_monitor_info fs).running = true ↔
      ∃ s, fs.stateFile = some s ∧ pyStrip s = "running")
  ∧ ((get_monitor_info fs).running = false → (get_monitor_info fs).interval = none)
  ∧ (∀ s, fs.intervalFile = some s → pyParseInt s = none →
      (get_monitor_info fs).running = true → (get_monitor_info fs).interval = some 300)
  ∧ (fs.intervalFile = none → (get_monitor_info fs).running = true →
      (get_monitor_info fs).interval = some 300)
  ∧ (∀ s v, fs.intervalFile = some s → pyParseInt s = some v →
      (get_monitor_info fs).running = true → (get_monitor_info fs).interval = some v) := by
  obtain ⟨st, itv⟩ := fs
  refine ⟨?_, ?_, ?_, ?_, ?_⟩
  · rw [show (get_monitor_info ⟨st, itv⟩).running = is_monitoring st from rfl]
    match st with
    | none => simp [is_monitoring]
    | some s =>
      rw [is_monitoring]
      simp only [beq_iff_eq, Option.some.injEq]
      constructor
      · intro hs
        exact ⟨s, rfl, hs⟩
      · rintro ⟨s2, hs2, hstrip⟩
        cases hs2
        exact hstrip
  · intro h
    have h2 : is_monitoring st = false := h
    simp [get_monitor_info, h2]
  · intro s hs hparse hrun
    have hr : is_monitoring st = true := hrun
    rw [show (⟨st, itv⟩ : LifecycleFS).intervalFile = itv from rfl] at hs
    subst hs
    simp [get_monitor_info, hr, hparse]
  · intro hs hrun
    have hr : is_monitoring st = true := hrun
    rw [show (⟨st, itv⟩ : LifecycleFS).intervalFile = itv from rfl] at hs
    subst hs
    simp [get_monitor_info, hr]
  · intro s v hs hparse hrun
    have hr : is_monitoring st = true := hrun
    rw [show (⟨st, itv⟩ : LifecycleFS).intervalFile = itv from rfl] at hs
    subst hs
    simp [get_monitor_info, hr, hparse]

/-- Concrete instance for C8 (amended): running flag with a malformed interval
record falls back to 300. -/
theorem c8_status_report_witness :
    (⟨some "running", some "abc"⟩ : LifecycleFS).intervalFile = some "abc"
  ∧ pyParseInt "abc" = none
  ∧ (get_monitor_info ⟨some "running", some "abc"⟩).running = true
  ∧ (get_monitor_info ⟨some "running", some "abc"⟩).interval = some 300 :=
  ⟨rfl, by decide, by decide,
   (c8_status_report ⟨some "running", some "abc"⟩).2.2.1 "abc" rfl (by decide) (by decide)⟩

/-! ## Claim theorems about the poller worker -/

/-- Claim C7: the worker sleeps for `interval` seconds in 1-second increments
and re-checks the flag before every increment: with the flag continuously
running it performs exactly `interval` unit sleeps and `interval` flag reads
per chunk, never more than `interval` sleeps in any case; the moment a check
sees the flag gone it stops sleeping at once (zero further sleeps), so after
an external `stop` the worker sits out at most the one-second sleep already in
progress plus the current tick; once the flag is gone from read index `k` on,
the very next top-of-loop check exits the loop with no further sleeps, and the
final cleanup deletes the flag file itself — idempotently, so the flag file
does not exist afterward whether or not `stop` already removed it. -/
theorem c7_worker_responsive (flag : Nat → Option String) (interval k fuel i s : Nat)
    (hstop : ∀ m, k ≤ m → is_monitoring (flag m) = false) :
    (∀ (j n : Nat), (chunkSleep flag j n).2 ≤ n)
  ∧ (∀ (flag2 : Nat → Option String) (j n : Nat),
      (∀ m, is_monitoring (flag2 m) = true) → chunkSleep flag2 j n = (j + n, n))
  ∧ (∀ (j n : Nat), is_monitoring (flag j) = false → 0 < n →
      chunkSleep flag j n = (j + 1, 0))
  ∧ (k ≤ i → 0 < fuel →
      monitor_loop flag interval fuel i s = LoopOutcome.exited (i + 1) s)
  ∧ (∀ o : Option String, loop_cleanup o = none
      ∧ loop_cleanup (loop_cleanup o) = loop_cleanup o) := by
  refine ⟨?_, ?_, ?_, ?_, fun o => ⟨rfl, rfl⟩⟩
  · intro j n
    induction n generalizing j with
    | zero => rw [chunkSleep]
    | succ m ih =>
      rw [chunkSleep]
      split
      · simp only
        exact Nat.succ_le_succ (ih (j + 1))
      · simp
  · intro flag2 j n hall
    induction n generalizing j with
    | zero => simp [chunkSleep]
    | succ m ih =>
      rw [chunkSleep, if_pos (hall j), ih (j + 1)]
      show (j + 1 + m, m + 1) = (j + (m + 1), m + 1)
      rw [show j + 1 + m = j + (m + 1) from by omega]
  · intro j n hj hn
    match n with
    | m + 1 => rw [chunkSleep, if_neg (by rw [hj]; exact Bool.false_ne_true)]
  · intro hk hfuel
    match fuel with
    | f + 1 =>
      rw [monitor_loop, if_neg (by rw [hstop i hk]; exact Bool.false_ne_true)]

/-- Concrete instance for C7: flag absent from the first read on; the loop
exits at its first check with no sleeps, and the cleanup leaves no flag. -/
theorem c7_worker_responsive_witness :
    (∀ m, 0 ≤ m → is_monitoring ((fun _ => (none : Option String)) m) = false)
  ∧ monitor_loop (fun _ => none) 300 5 0 0 = LoopOutcome.exited 1 0
  ∧ loop_cleanup (some "running") = none :=
  ⟨fun m _ => rfl,
   (c7_worker_responsive (fun _ => none) 300 0 5 0 0 (fun m _ => rfl)).2.2.2.1
     (Nat.le_refl 0) (by omega),
   ((c7_worker_responsive (fun _ => none) 300 0 5 0 0 (fun m _ => rfl)).2.2.2.2
     (some "running")).1⟩

end Spectrum
